import Mathlib

/-!
Shallow embedding of the `music_generator` score model
(`src/music_generator/music/score.py`), together with the timing and
pitch primitives it imports (`Duration`, `Tempo`, `Signature`, `Note`),
which are modelled from the spec since `timing.py` and `notes.py` are
not part of the sources.

Python objects with identity and in-place mutation (`PositionedNote`)
are embedded with an explicit store: a `Store` is the list of all
`PositionedNote` objects allocated so far, and object references are
indices (`NoteId`) into it.  Every mutating method of the source is a
function from a store to a store.
-/

namespace MusicGen

/-- Modelled from the spec: `Note` (from the missing `notes.py`) is an
immutable pitch identity, "name + octave, or equivalent"; the timing
core never inspects it beyond identity. -/
structure Note where
  name : String
  octave : Int
deriving DecidableEq, Repr

/-- Modelled from the spec: `Duration` (from the missing `timing.py`) is
"an absolute time span. Represented as a single scalar (seconds, or any
consistent unit) supporting addition, scalar multiplication, and
ordering. Immutable value type."  The scalar is modelled exactly as a
rational. -/
structure Duration where
  seconds : ℚ
deriving DecidableEq, Repr

/-- Modelled from the spec: `Duration + Duration -> Duration`. -/
def Duration.add (a b : Duration) : Duration :=
  ⟨a.seconds + b.seconds⟩

instance : Add Duration := ⟨Duration.add⟩

/-- Modelled from the spec: `Duration × scalar -> Duration`
(scalar multiplication of a time span). -/
def Duration.scale (k : ℚ) (d : Duration) : Duration :=
  ⟨k * d.seconds⟩

/-- Modelled from the spec: `Tempo` (from the missing `timing.py`) is a
beats-per-minute descriptor.  Immutable. -/
structure Tempo where
  bpm : ℚ
deriving DecidableEq, Repr

/-- Modelled from the spec: `Tempo.quarter_note()` returns the Duration
of one quarter note at this tempo, computed as `60 / bpm`. -/
def Tempo.quarter_note (t : Tempo) : Duration :=
  ⟨60 / t.bpm⟩

/-- Modelled from the spec: `Signature` (from the missing `timing.py`)
is a time signature `(numerator, denominator)`.  Immutable, not
validated. -/
structure Signature where
  numerator : Nat
  denominator : Nat
deriving DecidableEq, Repr

/-- Modelled from the spec: `Signature.num_quarter_notes()` returns
`numerator × 4 / denominator`, the number of quarter-note beats in one
measure under this signature.  Named `get_num_quarter_notes` after the
call site in `Measure.total_time` (score.py line 64). -/
def Signature.get_num_quarter_notes (sig : Signature) : ℚ :=
  (sig.numerator : ℚ) * 4 / (sig.denominator : ℚ)

/-- Modelled from the spec: `Duration.from_num_beats(beats, tempo)`
returns `beats × tempo.quarter_note()`. -/
def Duration.from_num_beats (beats : ℚ) (tempo : Tempo) : Duration :=
  Duration.scale beats tempo.quarter_note

/-- `PositionedNote` (score.py lines 8-13): a `Note` bound to an offset
and a duration within a timeline, with a velocity. -/
structure PositionedNote where
  note : Note
  offset : Duration
  duration : Duration
  velocity : ℚ
deriving DecidableEq, Repr

/-- A reference to a `PositionedNote` object: its index in the store. -/
abbrev NoteId := Nat

/-- The allocation store of `PositionedNote` objects.  Python object
references are embedded as indices into this list. -/
abbrev Store := List PositionedNote

/-- Placeholder used by total lookups; theorems about store contents
carry validity hypotheses that keep it unreachable. -/
def defaultPN : PositionedNote :=
  ⟨⟨"", 0⟩, ⟨0⟩, ⟨0⟩, 0⟩

/-- In-place update of the object at index `id` (no-op out of range,
which validity hypotheses rule out). -/
def Store.update : Store → Nat → (PositionedNote → PositionedNote) → Store
  | [], _, _ => []
  | p :: rest, 0, f => f p :: rest
  | p :: rest, n + 1, f => p :: Store.update rest n f

/-- `PositionedNote.add_offset` (score.py lines 18-28): `self.offset +=
offset; return self`.  In the store embedding: mutate the object at
`id` in place and return the very same reference. -/
def PositionedNote.add_offset (s : Store) (id : NoteId) (off : Duration) :
    Store × NoteId :=
  (Store.update s id (fun p => { p with offset := p.offset + off }), id)

/-- `PositionedNote.get_moment_release` (score.py lines 30-36):
`self.offset + self.duration`. -/
def PositionedNote.get_moment_release (p : PositionedNote) : Duration :=
  p.offset + p.duration

/-- `PositionedNote.clone` (score.py lines 38-44): `deepcopy(self)`.
In the store embedding: allocate a fresh object holding a copy of the
value at `id` and return the fresh reference. -/
def PositionedNote.clone (s : Store) (id : NoteId) : Store × NoteId :=
  (s ++ [s.getD id defaultPN], s.length)

/-- `Measure` (score.py lines 47-56): a tempo, a signature and an
ordered list of references to beat-relative `PositionedNote`s. -/
structure Measure where
  tempo : Tempo
  signature : Signature
  notes : List NoteId
deriving DecidableEq, Repr

/-- `Measure.total_time` (score.py lines 59-65):
`self.signature.get_num_quarter_notes() * self.tempo.quarter_note()`. -/
def Measure.total_time (m : Measure) : Duration :=
  Duration.scale m.signature.get_num_quarter_notes m.tempo.quarter_note

/-- `Measure.add_note` (score.py lines 67-82): convert `position` and
`duration` from beats to `Duration` via `Duration.from_num_beats(·,
self.tempo)`, allocate a new `PositionedNote`, append its reference to
`self.notes`, and return self (the updated measure). -/
def Measure.add_note (s : Store) (m : Measure) (note : Note)
    (position duration : ℚ) (velocity : ℚ) : Store × Measure :=
  let positionD := Duration.from_num_beats position m.tempo
  let durationD := Duration.from_num_beats duration m.tempo
  (s ++ [⟨note, positionD, durationD, velocity⟩],
   { m with notes := m.notes ++ [s.length] })

/-- `Measure.generate_notes` (score.py lines 84-93):
`[note.clone().add_offset(offset) for note in self.notes]` —
left-to-right over the stored references, each iteration clones the
stored object and then offsets the clone in place. -/
def Measure.generate_notes (s : Store) (m : Measure) (offset : Duration) :
    Store × List NoteId :=
  m.notes.foldl
    (fun acc nid =>
      let c := PositionedNote.clone acc.1 nid
      let r := PositionedNote.add_offset c.1 c.2 offset
      (r.1, acc.2 ++ [r.2]))
    (s, ([] : List NoteId))

/-- `Track` (score.py lines 102-104): an ordered sequence of measure
references (sharing: the same `Measure` value may occur many times). -/
structure Track where
  measures : List Measure
deriving DecidableEq, Repr

/-- `Track.generate_notes` (score.py lines 106-114): `notes = [];
offset = Duration(0); for measure in self.measures: notes +=
measure.generate_notes(offset); offset += measure.total_time()`. -/
def Track.generate_notes (s : Store) (t : Track) : Store × List NoteId :=
  let r := t.measures.foldl
    (fun acc measure =>
      let g := Measure.generate_notes acc.1 measure acc.2.2
      (g.1, acc.2.1 ++ g.2, acc.2.2 + measure.total_time))
    (s, ([] : List NoteId), (⟨0⟩ : Duration))
  (r.1, r.2.1)

/-- `Score` (score.py lines 117-132): a dict from names to tracks.
Embedded as an association list with Python-dict semantics (assignment
overwrites in place, otherwise appends). -/
structure Score where
  tracks : List (String × Track)
deriving DecidableEq, Repr

/-- Python dict assignment `d[name] = track`: overwrite the existing
entry for `name` in place, or append a new one. -/
def dictInsert : List (String × Track) → String → Track →
    List (String × Track)
  | [], name, t => [(name, t)]
  | (k, v) :: rest, name, t =>
    if k = name then (k, t) :: rest else (k, v) :: dictInsert rest name t

/-- Python dict lookup `d[name]` together with `name in d`. -/
def dictLookup : List (String × Track) → String → Option Track
  | [], _ => none
  | (k, v) :: rest, name => if k = name then some v else dictLookup rest name

/-- `Score.add_track` (score.py lines 124-125):
`self.tracks[name] = track`. -/
def Score.add_track (sc : Score) (name : String) (t : Track) : Score :=
  ⟨dictInsert sc.tracks name t⟩

/-- `Score.get_track` (score.py lines 127-132): if `name` is absent,
return (not raise) the error value `IndexError('{} not found in
tracks')`; otherwise return the stored track.  The returned
error-or-track is embedded as `Except`. -/
def Score.get_track (sc : Score) (name : String) : Except String Track :=
  match dictLookup sc.tracks name with
  | none => Except.error (name ++ " not found in tracks")
  | some t => Except.ok t

/-- A stored note shifted by `off`: the value produced by cloning `p`
and offsetting the clone. -/
def offsetPN (p : PositionedNote) (off : Duration) : PositionedNote :=
  { p with offset := p.offset + off }

/-- Spec-worded reference formulation of `Track.generate_notes`
(spec §4.4): the output is exactly the concatenation of the per-measure
results, each measure realized at the running offset, which starts at
`Duration(0)` and advances by `measure.total_time()` after each
measure.  Compared with the source-translated loop in claim C1. -/
def trackGenerateNotesSpec : Store → List Measure → Duration →
    Store × List NoteId
  | s, [], _ => (s, [])
  | s, m :: rest, off =>
    let r1 := Measure.generate_notes s m off
    let r2 := trackGenerateNotesSpec r1.1 rest (off + m.total_time)
    (r2.1, r1.2 ++ r2.2)

/-! ### Helper lemmas about the store embedding -/

theorem Duration.add_def (a b : ℚ) :
    (⟨a⟩ : Duration) + (⟨b⟩ : Duration) = ⟨a + b⟩ := rfl

theorem Duration.seconds_add (a b : Duration) :
    (a + b).seconds = a.seconds + b.seconds := rfl

theorem Duration.ext_iff' (a b : Duration) : a = b ↔ a.seconds = b.seconds := by
  cases a; cases b; simp

theorem Store.length_update (s : Store) (i : Nat)
    (f : PositionedNote → PositionedNote) :
    (Store.update s i f).length = s.length := by
  induction s generalizing i with
  | nil => rfl
  | cons p rest ih =>
    cases i with
    | zero => rfl
    | succ n => simp [Store.update, ih]

theorem Store.update_append_singleton (s : Store) (x : PositionedNote)
    (f : PositionedNote → PositionedNote) :
    Store.update (s ++ [x]) s.length f = s ++ [f x] := by
  induction s with
  | nil => rfl
  | cons p rest ih => simp [Store.update, ih]

theorem Store.getD_update_self (f : PositionedNote → PositionedNote)
    (d : PositionedNote) :
    ∀ (s : Store) (i : Nat), i < s.length →
      (Store.update s i f).getD i d = f (s.getD i d)
  | _ :: _, 0, _ => rfl
  | _ :: rest, n + 1, h =>
    Store.getD_update_self f d rest n (Nat.lt_of_succ_lt_succ h)

theorem Store.getD_update_ne (f : PositionedNote → PositionedNote)
    (d : PositionedNote) :
    ∀ (s : Store) (i j : Nat), j ≠ i →
      (Store.update s i f).getD j d = s.getD j d := by
  intro s
  induction s with
  | nil => intro i j _; rfl
  | cons p rest ih =>
    intro i j hne
    cases i with
    | zero =>
      cases j with
      | zero => exact absurd rfl hne
      | succ m => rfl
    | succ n =>
      cases j with
      | zero => rfl
      | succ m =>
        simpa [Store.update, List.getD] using
          ih n m (fun h => hne (by rw [h]))

theorem getD_append_self {α : Type} (d : α) :
    ∀ (s t : List α) (x : α), (s ++ x :: t).getD s.length d = x
  | [], _, _ => rfl
  | _ :: rest, t, x => getD_append_self d rest t x

theorem range'_getD : ∀ (n a i : Nat), i < n →
    (List.range' a n).getD i 0 = a + i
  | n + 1, a, 0, _ => rfl
  | n + 1, a, i + 1, h => by
    have := range'_getD n (a + 1) i (Nat.lt_of_succ_lt_succ h)
    simpa [List.range', List.getD, Nat.add_assoc, Nat.add_comm 1 i] using this

theorem map_getD_range' {α : Type} (d : α) :
    ∀ (L s : List α),
      (List.range' s.length L.length).map (fun i => (s ++ L).getD i d) = L := by
  intro L
  induction L with
  | nil => intro s; rfl
  | cons x rest ih =>
    intro s
    have hhead : (s ++ x :: rest).getD s.length d = x := getD_append_self d s rest x
    have htail :
        (List.range' (s.length + 1) rest.length).map
            (fun i => (s ++ x :: rest).getD i d) = rest := by
      have hlen : (s ++ [x]).length = s.length + 1 := by simp
      have := ih (s ++ [x])
      rw [hlen] at this
      simpa [List.append_assoc] using this
    calc (List.range' s.length (x :: rest).length).map
            (fun i => (s ++ x :: rest).getD i d)
        = (s ++ x :: rest).getD s.length d ::
            (List.range' (s.length + 1) rest.length).map
              (fun i => (s ++ x :: rest).getD i d) := rfl
      _ = x :: rest := by rw [hhead, htail]

/-- The body of the list comprehension in `Measure.generate_notes`:
clone the stored object, then offset the clone in place. -/
theorem gen_fold (off : Duration) :
    ∀ (ids : List NoteId) (s : Store) (acc : List NoteId),
      (∀ nid ∈ ids, nid < s.length) →
      ids.foldl
        (fun acc nid =>
          let c := PositionedNote.clone acc.1 nid
          let r := PositionedNote.add_offset c.1 c.2 off
          (r.1, acc.2 ++ [r.2]))
        (s, acc) =
      (s ++ ids.map (fun nid => offsetPN (s.getD nid defaultPN) off),
       acc ++ List.range' s.length ids.length) := by
  intro ids
  induction ids with
  | nil => intro s acc _; simp
  | cons id rest ih =>
    intro s acc hv
    have hid : id < s.length := hv id (by simp)
    rw [List.foldl_cons]
    have hstep : ∀ g : Store × List NoteId → NoteId → Store × List NoteId,
        List.foldl g
          (let c := PositionedNote.clone (s, acc).1 id
           let r := PositionedNote.add_offset c.1 c.2 off
           (r.1, (s, acc).2 ++ [r.2])) rest =
        List.foldl g
          (s ++ [offsetPN (s.getD id defaultPN) off], acc ++ [s.length]) rest := by
      intro g
      show List.foldl g
          (Store.update (s ++ [s.getD id defaultPN]) s.length
            (fun p => { p with offset := p.offset + off }), acc ++ [s.length]) rest = _
      rw [Store.update_append_singleton]
      rfl
    rw [hstep]
    have hv' : ∀ nid ∈ rest, nid < (s ++ [offsetPN (s.getD id defaultPN) off]).length := by
      intro nid hmem
      have h1 : nid < s.length := hv nid (List.mem_cons_of_mem id hmem)
      have h2 : (s ++ [offsetPN (s.getD id defaultPN) off]).length = s.length + 1 := by
        simp
      rw [h2]
      exact Nat.lt_succ_of_lt h1
    rw [ih (s ++ [offsetPN (s.getD id defaultPN) off]) (acc ++ [s.length]) hv']
    have hmap :
        rest.map (fun nid =>
            offsetPN ((s ++ [offsetPN (s.getD id defaultPN) off]).getD nid defaultPN) off)
          = rest.map (fun nid => offsetPN (s.getD nid defaultPN) off) := by
      apply List.map_congr_left
      intro nid hmem
      rw [List.getD_append _ _ _ _ (hv nid (by simp [hmem]))]
    rw [hmap]
    have hlen : (s ++ [offsetPN (s.getD id defaultPN) off]).length = s.length + 1 := by
      simp
    rw [hlen]
    have hrange : List.range' s.length (rest.length + 1)
        = s.length :: List.range' (s.length + 1) rest.length := rfl
    simp [hrange, List.append_assoc]

/-- Closed form of `Measure.generate_notes`: it appends to the store one
fresh object per stored note — a clone shifted by `off` — and returns
the list of the fresh references, in stored order. -/
theorem generate_notes_eq (s : Store) (m : Measure) (off : Duration)
    (hv : ∀ nid ∈ m.notes, nid < s.length) :
    Measure.generate_notes s m off =
      (s ++ m.notes.map (fun nid => offsetPN (s.getD nid defaultPN) off),
       List.range' s.length m.notes.length) := by
  have h := gen_fold off m.notes s [] hv
  simpa [Measure.generate_notes] using h

/-- The values of the references returned by `Measure.generate_notes`,
read back in the store it returns: the stored notes, each shifted. -/
theorem generate_notes_deref (s : Store) (m : Measure) (off : Duration)
    (hv : ∀ nid ∈ m.notes, nid < s.length) :
    ((Measure.generate_notes s m off).2).map
        (fun rid => ((Measure.generate_notes s m off).1).getD rid defaultPN)
      = m.notes.map (fun nid => offsetPN (s.getD nid defaultPN) off) := by
  rw [generate_notes_eq s m off hv]
  have hlen : m.notes.length
      = (m.notes.map (fun nid => offsetPN (s.getD nid defaultPN) off)).length := by
    simp
  rw [show (s ++ m.notes.map (fun nid => offsetPN (s.getD nid defaultPN) off),
        List.range' s.length m.notes.length).2 = List.range' s.length m.notes.length
      from rfl]
  rw [hlen]
  exact map_getD_range' defaultPN
    (m.notes.map (fun nid => offsetPN (s.getD nid defaultPN) off)) s

/-- The loop of `Track.generate_notes`, unrolled: threading the
accumulator through the fold produces the spec-worded concatenation. -/
theorem track_fold (ms : List Measure) :
    ∀ (s : Store) (acc : List NoteId) (off : Duration),
      ms.foldl
        (fun acc measure =>
          let g := Measure.generate_notes acc.1 measure acc.2.2
          (g.1, acc.2.1 ++ g.2, acc.2.2 + measure.total_time))
        (s, acc, off) =
      ((trackGenerateNotesSpec s ms off).1,
       acc ++ (trackGenerateNotesSpec s ms off).2,
       ms.foldl (fun o m => o + m.total_time) off) := by
  induction ms with
  | nil => intro s acc off; simp [trackGenerateNotesSpec]
  | cons m rest ih =>
    intro s acc off
    rw [List.foldl_cons]
    have hstep : ∀ g : Store × List NoteId × Duration → Measure →
          Store × List NoteId × Duration,
        List.foldl g
          (let g0 := Measure.generate_notes (s, acc, off).1 m (s, acc, off).2.2
           (g0.1, (s, acc, off).2.1 ++ g0.2, (s, acc, off).2.2 + m.total_time)) rest =
        List.foldl g
          ((Measure.generate_notes s m off).1,
           acc ++ (Measure.generate_notes s m off).2,
           off + m.total_time) rest := fun _ => rfl
    rw [hstep, ih]
    simp [trackGenerateNotesSpec, List.append_assoc]

theorem dictLookup_dictInsert (name : String) (t : Track) :
    ∀ l : List (String × Track), dictLookup (dictInsert l name t) name = some t := by
  intro l
  induction l with
  | nil => simp [dictInsert, dictLookup]
  | cons kv rest ih =>
    by_cases h : kv.1 = name
    · simp [dictInsert, dictLookup, h]
    · simpa [dictInsert, dictLookup, h] using ih

theorem getD_map {α β : Type} (f : α → β) :
    ∀ (l : List α) (i : Nat), i < l.length →
      ∀ (d : β) (d' : α), (l.map f).getD i d = f (l.getD i d')
  | _ :: _, 0, _, _, _ => rfl
  | _ :: rest, i + 1, h, d, d' =>
    getD_map f rest i (Nat.lt_of_succ_lt_succ h) d d'

theorem getD_mem_of_lt {α : Type} (l : List α) (d : α) (i : Nat) (h : i < l.length) :
    l.getD i d ∈ l := by
  rw [List.getD_eq_getElem l d h]
  exact List.getElem_mem h

theorem getD_append3 {α : Type} (d : α) (s : List α) (x y z : α) :
    (((s ++ [x]) ++ [y]) ++ [z]).getD s.length d = x ∧
    (((s ++ [x]) ++ [y]) ++ [z]).getD (s.length + 1) d = y ∧
    (((s ++ [x]) ++ [y]) ++ [z]).getD (s.length + 2) d = z := by
  refine ⟨?_, ?_, ?_⟩
  · have h : ((s ++ [x]) ++ [y]) ++ [z] = s ++ x :: ([y] ++ [z]) := by simp
    rw [h]
    exact getD_append_self d s ([y] ++ [z]) x
  · have h : ((s ++ [x]) ++ [y]) ++ [z] = (s ++ [x]) ++ y :: [z] := by simp
    have hl : s.length + 1 = (s ++ [x]).length := by simp
    rw [h, hl]
    exact getD_append_self d (s ++ [x]) [z] y
  · have hl : s.length + 2 = ((s ++ [x]) ++ [y]).length := by
      simp [Nat.add_assoc]
    rw [hl]
    exact getD_append_self d ((s ++ [x]) ++ [y]) [] z

/-! ### Claim theorems -/

/-- C1: `Track.generate_notes` processes the measures in stored order
with a running offset that starts at `Duration(0)`: for each measure it
appends that measure's `generate_notes(running_offset)` to the output in
order and then advances the offset by the measure's `total_time()`; the
final output is exactly the concatenation of the per-measure results,
as captured by `trackGenerateNotesSpec`. -/
theorem c1_track_concat (s : Store) (t : Track) :
    Track.generate_notes s t = trackGenerateNotesSpec s t.measures ⟨0⟩ := by
  simp only [Track.generate_notes]
  rw [track_fold t.measures s [] ⟨0⟩]
  simp

/-- C4: `Score.get_track` on a name not present surfaces an explicit
lookup-failure signal (the error value `"<name> not found in tracks"`,
returned rather than raised by the source) and never an `ok` track; on
a present name it returns the stored track. -/
theorem c4_get_track (sc : Score) (name : String) :
    (dictLookup sc.tracks name = none →
      Score.get_track sc name = Except.error (name ++ " not found in tracks") ∧
      ∀ t : Track, Score.get_track sc name ≠ Except.ok t) ∧
    (∀ t : Track, dictLookup sc.tracks name = some t →
      Score.get_track sc name = Except.ok t) := by
  refine ⟨fun h => ⟨?_, ?_⟩, fun t h => ?_⟩
  · simp [Score.get_track, h]
  · intro t
    simp [Score.get_track, h]
  · simp [Score.get_track, h]

/-- Witness for C4 at concrete scores: lookup on an empty score fails
with the error value; lookup on a one-track score succeeds. -/
theorem c4_get_track_witness :
    Score.get_track ⟨[]⟩ "missing" = Except.error "missing not found in tracks" ∧
    Score.get_track ⟨[("lead", Track.mk [])]⟩ "lead" = Except.ok (Track.mk []) :=
  ⟨((c4_get_track ⟨[]⟩ "missing").1 rfl).1,
   (c4_get_track ⟨[("lead", Track.mk [])]⟩ "lead").2 (Track.mk []) (by simp [dictLookup])⟩

/-- C5: `Measure.total_time` equals `signature.get_num_quarter_notes()`
multiplied by `tempo.quarter_note()`, i.e. the number of quarter-note
beats in one measure times the duration of one quarter note. -/
theorem c5_total_time (m : Measure) :
    Measure.total_time m
      = Duration.scale m.signature.get_num_quarter_notes m.tempo.quarter_note ∧
    Measure.total_time m
      = ⟨(m.signature.numerator : ℚ) * 4 / (m.signature.denominator : ℚ)
          * (60 / m.tempo.bpm)⟩ :=
  ⟨rfl, rfl⟩

/-- C7: for every position and duration in beats — with no bound on the
position, so also beyond the measure's nominal length — `add_note`
converts both through `Duration.from_num_beats(·, tempo)`, allocates
exactly one new `PositionedNote`, appends its reference to the measure,
and returns the updated measure itself; the function is total, so
acceptance is silent (no error signal exists). -/
theorem c7_add_note (s : Store) (m : Measure) (note : Note)
    (position duration velocity : ℚ) :
    Measure.add_note s m note position duration velocity =
      (s ++ [⟨note, Duration.from_num_beats position m.tempo,
              Duration.from_num_beats duration m.tempo, velocity⟩],
       ⟨m.tempo, m.signature, m.notes ++ [s.length]⟩) ∧
    ((Measure.add_note s m note position duration velocity).2).notes.length
      = m.notes.length + 1 := by
  refine ⟨rfl, ?_⟩
  simp [Measure.add_note]

/-- C9: after `add_track(name, t)`, `get_track(name)` returns `t`, also
when `name` was previously mapped (silent overwrite). -/
theorem c9_add_track_overwrites (sc : Score) (name : String) (t : Track) :
    Score.get_track (Score.add_track sc name t) name = Except.ok t := by
  simp [Score.get_track, Score.add_track, dictLookup_dictInsert name t sc.tracks]

/-- C8: `add_offset` mutates the offset of the object at `id` in place
to `offset + extra`, returns the very same reference, leaves the note,
duration and velocity fields unchanged, allocates nothing, and touches
no other object. -/
theorem c8_add_offset (s : Store) (id : NoteId) (extra : Duration)
    (h : id < s.length) :
    (PositionedNote.add_offset s id extra).2 = id ∧
    ((PositionedNote.add_offset s id extra).1).length = s.length ∧
    ((PositionedNote.add_offset s id extra).1).getD id defaultPN
      = ⟨(s.getD id defaultPN).note,
         (s.getD id defaultPN).offset + extra,
         (s.getD id defaultPN).duration,
         (s.getD id defaultPN).velocity⟩ ∧
    ∀ j, j ≠ id → ((PositionedNote.add_offset s id extra).1).getD j defaultPN
      = s.getD j defaultPN := by
  refine ⟨rfl, Store.length_update s id _, ?_, ?_⟩
  · have hupd := Store.getD_update_self
      (fun p => { p with offset := p.offset + extra }) defaultPN s id h
    simpa [PositionedNote.add_offset] using hupd
  · intro j hj
    have hupd := Store.getD_update_ne
      (fun p => { p with offset := p.offset + extra }) defaultPN s id j hj
    simpa [PositionedNote.add_offset] using hupd

/-- Witness for C8 on a one-object store. -/
theorem c8_add_offset_witness :
    (0 : NoteId) < ([defaultPN] : Store).length ∧
    ((PositionedNote.add_offset [defaultPN] 0 ⟨1⟩).2 = 0 ∧
     ((PositionedNote.add_offset [defaultPN] 0 ⟨1⟩).1).length
       = ([defaultPN] : Store).length ∧
     ((PositionedNote.add_offset [defaultPN] 0 ⟨1⟩).1).getD 0 defaultPN
       = ⟨(([defaultPN] : Store).getD 0 defaultPN).note,
          (([defaultPN] : Store).getD 0 defaultPN).offset + ⟨1⟩,
          (([defaultPN] : Store).getD 0 defaultPN).duration,
          (([defaultPN] : Store).getD 0 defaultPN).velocity⟩ ∧
     ∀ j, j ≠ 0 → ((PositionedNote.add_offset [defaultPN] 0 ⟨1⟩).1).getD j defaultPN
       = ([defaultPN] : Store).getD j defaultPN) :=
  ⟨Nat.zero_lt_one, c8_add_offset [defaultPN] 0 ⟨1⟩ Nat.zero_lt_one⟩

/-- C10: `Measure.generate_notes(base_offset)` returns a list of the
same length as the stored note list whose i-th element, read back in the
resulting store, carries the same note, duration and velocity as the
i-th stored note, and an offset equal to the stored offset plus
`base_offset`. -/
theorem c10_generate_pointwise (s : Store) (m : Measure) (off : Duration)
    (hv : ∀ nid ∈ m.notes, nid < s.length) :
    ((Measure.generate_notes s m off).2).length = m.notes.length ∧
    ((Measure.generate_notes s m off).2).map
        (fun rid => ((Measure.generate_notes s m off).1).getD rid defaultPN)
      = m.notes.map (fun nid =>
          ⟨(s.getD nid defaultPN).note,
           (s.getD nid defaultPN).offset + off,
           (s.getD nid defaultPN).duration,
           (s.getD nid defaultPN).velocity⟩) := by
  constructor
  · rw [generate_notes_eq s m off hv]
    simp
  · rw [generate_notes_deref s m off hv]
    rfl

/-- Witness for C10 on a one-note measure. -/
theorem c10_generate_pointwise_witness :
    (∀ nid ∈ (([0] : List NoteId)), nid < ([defaultPN] : Store).length) ∧
    (((Measure.generate_notes [defaultPN] ⟨⟨120⟩, ⟨4, 4⟩, [0]⟩ ⟨2⟩).2).length
        = ([0] : List NoteId).length ∧
     ((Measure.generate_notes [defaultPN] ⟨⟨120⟩, ⟨4, 4⟩, [0]⟩ ⟨2⟩).2).map
        (fun rid =>
          ((Measure.generate_notes [defaultPN] ⟨⟨120⟩, ⟨4, 4⟩, [0]⟩ ⟨2⟩).1).getD
            rid defaultPN)
      = ([0] : List NoteId).map (fun nid =>
          ⟨(([defaultPN] : Store).getD nid defaultPN).note,
           (([defaultPN] : Store).getD nid defaultPN).offset + ⟨2⟩,
           (([defaultPN] : Store).getD nid defaultPN).duration,
           (([defaultPN] : Store).getD nid defaultPN).velocity⟩)) :=
  ⟨by decide,
   c10_generate_pointwise [defaultPN] ⟨⟨120⟩, ⟨4, 4⟩, [0]⟩ ⟨2⟩ (by decide)⟩

/-- C2: realizing a measure leaves its stored template notes unchanged
in the store (each output is an offset clone), so a later
`generate_notes` call — at any offset, after any earlier call — reads
the same templates and produces the same absolute offsets as the same
call made before the earlier one: no drift across calls. -/
theorem c2_templates_unchanged (s : Store) (m : Measure) (off1 off2 : Duration)
    (hv : ∀ nid ∈ m.notes, nid < s.length) :
    (∀ nid ∈ m.notes,
      ((Measure.generate_notes s m off1).1).getD nid defaultPN
        = s.getD nid defaultPN) ∧
    (((Measure.generate_notes ((Measure.generate_notes s m off1).1) m off2).2).map
        (fun rid =>
          ((Measure.generate_notes ((Measure.generate_notes s m off1).1) m off2).1).getD
            rid defaultPN)
      = ((Measure.generate_notes s m off2).2).map
          (fun rid => ((Measure.generate_notes s m off2).1).getD rid defaultPN)) := by
  have hs1 : (Measure.generate_notes s m off1).1
      = s ++ m.notes.map (fun nid => offsetPN (s.getD nid defaultPN) off1) := by
    rw [generate_notes_eq s m off1 hv]
  have hpres : ∀ nid ∈ m.notes,
      ((Measure.generate_notes s m off1).1).getD nid defaultPN
        = s.getD nid defaultPN := by
    intro nid hmem
    rw [hs1]
    exact List.getD_append _ _ _ _ (hv nid hmem)
  refine ⟨hpres, ?_⟩
  have hv1 : ∀ nid ∈ m.notes, nid < ((Measure.generate_notes s m off1).1).length := by
    intro nid hmem
    rw [hs1, List.length_append]
    exact Nat.lt_of_lt_of_le (hv nid hmem) (Nat.le_add_right _ _)
  rw [generate_notes_deref _ m off2 hv1, generate_notes_deref s m off2 hv]
  apply List.map_congr_left
  intro nid hmem
  rw [hpres nid hmem]

/-- Witness for C2 on a one-note measure, with two different offsets. -/
theorem c2_templates_unchanged_witness :
    (∀ nid ∈ (([0] : List NoteId)), nid < ([defaultPN] : Store).length) ∧
    ((∀ nid ∈ (([0] : List NoteId)),
      ((Measure.generate_notes [defaultPN] ⟨⟨120⟩, ⟨4, 4⟩, [0]⟩ ⟨2⟩).1).getD nid defaultPN
        = ([defaultPN] : Store).getD nid defaultPN) ∧
     (((Measure.generate_notes
          ((Measure.generate_notes [defaultPN] ⟨⟨120⟩, ⟨4, 4⟩, [0]⟩ ⟨2⟩).1)
          ⟨⟨120⟩, ⟨4, 4⟩, [0]⟩ ⟨3⟩).2).map
        (fun rid =>
          ((Measure.generate_notes
              ((Measure.generate_notes [defaultPN] ⟨⟨120⟩, ⟨4, 4⟩, [0]⟩ ⟨2⟩).1)
              ⟨⟨120⟩, ⟨4, 4⟩, [0]⟩ ⟨3⟩).1).getD rid defaultPN)
      = ((Measure.generate_notes [defaultPN] ⟨⟨120⟩, ⟨4, 4⟩, [0]⟩ ⟨3⟩).2).map
          (fun rid =>
            ((Measure.generate_notes [defaultPN] ⟨⟨120⟩, ⟨4, 4⟩, [0]⟩ ⟨3⟩).1).getD
              rid defaultPN))) :=
  ⟨by decide,
   c2_templates_unchanged [defaultPN] ⟨⟨120⟩, ⟨4, 4⟩, [0]⟩ ⟨2⟩ ⟨3⟩ (by decide)⟩

/-- C6: for a measure populated by `add_note` calls in order A, B, C —
whatever the beat positions passed — `generate_notes` returns the
corresponding events exactly in order A, B, C (insertion order, never
sorted by position). -/
theorem c6_insertion_order (s : Store) (tempo : Tempo) (sig : Signature)
    (A B C : Note) (pa da va pb db vb pc dc vc : ℚ) (off : Duration) :
    (let r1 := Measure.add_note s ⟨tempo, sig, []⟩ A pa da va
     let r2 := Measure.add_note r1.1 r1.2 B pb db vb
     let r3 := Measure.add_note r2.1 r2.2 C pc dc vc
     let g := Measure.generate_notes r3.1 r3.2 off
     g.2.map (fun rid => g.1.getD rid defaultPN))
      = [⟨A, Duration.from_num_beats pa tempo + off, Duration.from_num_beats da tempo, va⟩,
         ⟨B, Duration.from_num_beats pb tempo + off, Duration.from_num_beats db tempo, vb⟩,
         ⟨C, Duration.from_num_beats pc tempo + off, Duration.from_num_beats dc tempo, vc⟩] := by
  simp only [Measure.add_note, List.nil_append, List.length_append, List.length_cons,
    List.length_nil, Nat.zero_add, Nat.add_assoc, Nat.reduceAdd]
  generalize hPA : (⟨A, Duration.from_num_beats pa tempo,
    Duration.from_num_beats da tempo, va⟩ : PositionedNote) = PA
  generalize hPB : (⟨B, Duration.from_num_beats pb tempo,
    Duration.from_num_beats db tempo, vb⟩ : PositionedNote) = PB
  generalize hPC : (⟨C, Duration.from_num_beats pc tempo,
    Duration.from_num_beats dc tempo, vc⟩ : PositionedNote) = PC
  have hv : ∀ nid ∈ ([s.length] ++ [s.length + 1] ++ [s.length + 2] : List NoteId),
      nid < ((((s ++ [PA]) ++ [PB]) ++ [PC] : Store)).length := by
    intro nid h
    simp only [List.mem_append, List.mem_singleton, List.length_append,
      List.length_cons, List.length_nil] at h ⊢
    rcases h with (h | h) | h <;> omega
  rw [generate_notes_deref (((s ++ [PA]) ++ [PB]) ++ [PC])
      ⟨tempo, sig, [s.length] ++ [s.length + 1] ++ [s.length + 2]⟩ off hv]
  have h3 := getD_append3 defaultPN s PA PB PC
  show [offsetPN ((((s ++ [PA]) ++ [PB]) ++ [PC]).getD s.length defaultPN) off,
        offsetPN ((((s ++ [PA]) ++ [PB]) ++ [PC]).getD (s.length + 1) defaultPN) off,
        offsetPN ((((s ++ [PA]) ++ [PB]) ++ [PC]).getD (s.length + 2) defaultPN) off] = _
  rw [h3.1, h3.2.1, h3.2.2]
  subst hPA hPB hPC
  simp [offsetPN]

/-- Counterexample to C3 as stated: a constructible degenerate measure
(`Signature(0, 4)`, so `total_time()` is `Duration(0)`) with one note,
referenced twice in a track, yields two distinct output objects but at
the SAME absolute offset — refuting "never two events at the same
offset" / "different absolute offsets" without a nonzero-`total_time`
proviso. -/
theorem c3_counterexample :
    (Measure.add_note [] ⟨⟨120⟩, ⟨0, 4⟩, []⟩ ⟨"C", 3⟩ 0 1 1).2.notes ≠ [] ∧
    ((Track.generate_notes (Measure.add_note [] ⟨⟨120⟩, ⟨0, 4⟩, []⟩ ⟨"C", 3⟩ 0 1 1).1
        ⟨[(Measure.add_note [] ⟨⟨120⟩, ⟨0, 4⟩, []⟩ ⟨"C", 3⟩ 0 1 1).2,
          (Measure.add_note [] ⟨⟨120⟩, ⟨0, 4⟩, []⟩ ⟨"C", 3⟩ 0 1 1).2]⟩).2).length = 2 ∧
    ((Track.generate_notes (Measure.add_note [] ⟨⟨120⟩, ⟨0, 4⟩, []⟩ ⟨"C", 3⟩ 0 1 1).1
        ⟨[(Measure.add_note [] ⟨⟨120⟩, ⟨0, 4⟩, []⟩ ⟨"C", 3⟩ 0 1 1).2,
          (Measure.add_note [] ⟨⟨120⟩, ⟨0, 4⟩, []⟩ ⟨"C", 3⟩ 0 1 1).2]⟩).2).getD 0 0
      ≠ ((Track.generate_notes (Measure.add_note [] ⟨⟨120⟩, ⟨0, 4⟩, []⟩ ⟨"C", 3⟩ 0 1 1).1
          ⟨[(Measure.add_note [] ⟨⟨120⟩, ⟨0, 4⟩, []⟩ ⟨"C", 3⟩ 0 1 1).2,
            (Measure.add_note [] ⟨⟨120⟩, ⟨0, 4⟩, []⟩ ⟨"C", 3⟩ 0 1 1).2]⟩).2).getD 1 0 ∧
    (((Track.generate_notes (Measure.add_note [] ⟨⟨120⟩, ⟨0, 4⟩, []⟩ ⟨"C", 3⟩ 0 1 1).1
        ⟨[(Measure.add_note [] ⟨⟨120⟩, ⟨0, 4⟩, []⟩ ⟨"C", 3⟩ 0 1 1).2,
          (Measure.add_note [] ⟨⟨120⟩, ⟨0, 4⟩, []⟩ ⟨"C", 3⟩ 0 1 1).2]⟩).1).getD
        (((Track.generate_notes (Measure.add_note [] ⟨⟨120⟩, ⟨0, 4⟩, []⟩ ⟨"C", 3⟩ 0 1 1).1
          ⟨[(Measure.add_note [] ⟨⟨120⟩, ⟨0, 4⟩, []⟩ ⟨"C", 3⟩ 0 1 1).2,
            (Measure.add_note [] ⟨⟨120⟩, ⟨0, 4⟩, []⟩ ⟨"C", 3⟩ 0 1 1).2]⟩).2).getD 0 0)
        defaultPN).offset
      = (((Track.generate_notes (Measure.add_note [] ⟨⟨120⟩, ⟨0, 4⟩, []⟩ ⟨"C", 3⟩ 0 1 1).1
          ⟨[(Measure.add_note [] ⟨⟨120⟩, ⟨0, 4⟩, []⟩ ⟨"C", 3⟩ 0 1 1).2,
            (Measure.add_note [] ⟨⟨120⟩, ⟨0, 4⟩, []⟩ ⟨"C", 3⟩ 0 1 1).2]⟩).1).getD
          (((Track.generate_notes (Measure.add_note [] ⟨⟨120⟩, ⟨0, 4⟩, []⟩ ⟨"C", 3⟩ 0 1 1).1
            ⟨[(Measure.add_note [] ⟨⟨120⟩, ⟨0, 4⟩, []⟩ ⟨"C", 3⟩ 0 1 1).2,
              (Measure.add_note [] ⟨⟨120⟩, ⟨0, 4⟩, []⟩ ⟨"C", 3⟩ 0 1 1).2]⟩).2).getD 1 0)
          defaultPN).offset := by
  refine ⟨?_, ?_, ?_, ?_⟩ <;>
    norm_num [Track.generate_notes, Measure.generate_notes, Measure.add_note,
      Measure.total_time, PositionedNote.clone, PositionedNote.add_offset,
      Store.update, Duration.from_num_beats, Duration.scale, Tempo.quarter_note,
      Signature.get_num_quarter_notes, defaultPN, offsetPN, Duration.add_def]

/-- C3 as amended: in a track `[M, M]` built from the same measure
twice, the two realizations produce pairwise distinct output objects
(never the same object twice), the i-th event of the second block sits
exactly `M.total_time()` after the i-th event of the first block, and —
provided `M.total_time()` is not `Duration(0)` (the amendment the
counterexample forces) — those two events have different absolute
offsets. -/
theorem c3_repeated_measure (s : Store) (M : Measure)
    (hv : ∀ nid ∈ M.notes, nid < s.length) :
    ((Track.generate_notes s ⟨[M, M]⟩).2).length = 2 * M.notes.length ∧
    ((Track.generate_notes s ⟨[M, M]⟩).2).Nodup ∧
    ∀ i, i < M.notes.length →
      ((((Track.generate_notes s ⟨[M, M]⟩).1).getD
          (((Track.generate_notes s ⟨[M, M]⟩).2).getD (M.notes.length + i) 0)
          defaultPN).offset
        = (((Track.generate_notes s ⟨[M, M]⟩).1).getD
            (((Track.generate_notes s ⟨[M, M]⟩).2).getD i 0) defaultPN).offset
          + M.total_time) ∧
      (M.total_time ≠ ⟨0⟩ →
        (((Track.generate_notes s ⟨[M, M]⟩).1).getD
            (((Track.generate_notes s ⟨[M, M]⟩).2).getD (M.notes.length + i) 0)
            defaultPN).offset
          ≠ (((Track.generate_notes s ⟨[M, M]⟩).1).getD
              (((Track.generate_notes s ⟨[M, M]⟩).2).getD i 0) defaultPN).offset) := by
  have hg1 := generate_notes_eq s M ⟨0⟩ hv
  have hlen1 : (s ++ M.notes.map (fun nid => offsetPN (s.getD nid defaultPN) ⟨0⟩)).length
      = s.length + M.notes.length := by simp
  have hv1 : ∀ nid ∈ M.notes,
      nid < (s ++ M.notes.map (fun nid => offsetPN (s.getD nid defaultPN) ⟨0⟩)).length := by
    intro nid hm
    rw [hlen1]
    exact Nat.lt_of_lt_of_le (hv nid hm) (Nat.le_add_right _ _)
  have hg2 := generate_notes_eq _ M (⟨0⟩ + M.total_time) hv1
  have htrack : Track.generate_notes s ⟨[M, M]⟩
      = ((s ++ M.notes.map (fun nid => offsetPN (s.getD nid defaultPN) ⟨0⟩))
          ++ M.notes.map (fun nid =>
              offsetPN ((s ++ M.notes.map (fun nid => offsetPN (s.getD nid defaultPN) ⟨0⟩)).getD
                nid defaultPN) (⟨0⟩ + M.total_time)),
         List.range' s.length M.notes.length
          ++ List.range' (s.length + M.notes.length) M.notes.length) := by
    simp only [Track.generate_notes, trackGenerateNotesSpec]
    rw [track_fold [M, M] s [] ⟨0⟩]
    simp only [trackGenerateNotesSpec, hg1, hg2]
    rw [hlen1]
    simp
  rw [htrack]
  refine ⟨by simp [Nat.two_mul], ?_, ?_⟩
  · have hcomb : List.range' s.length M.notes.length
        ++ List.range' (s.length + M.notes.length) M.notes.length
        = List.range' s.length (M.notes.length + M.notes.length) := by
      have h1 : s.length + M.notes.length = s.length + 1 * M.notes.length := by ring
      rw [h1, List.range'_append]
    rw [hcomb]
    exact List.nodup_range' _ _
  · intro i hi
    have hid1 : (List.range' s.length M.notes.length
        ++ List.range' (s.length + M.notes.length) M.notes.length).getD i 0
        = s.length + i := by
      rw [List.getD_append _ _ _ _ (by simp [hi]), range'_getD _ _ _ hi]
    have hid2 : (List.range' s.length M.notes.length
        ++ List.range' (s.length + M.notes.length) M.notes.length).getD
          (M.notes.length + i) 0
        = s.length + M.notes.length + i := by
      rw [List.getD_append_right _ _ _ _ (by simp)]
      simp only [List.length_range']
      rw [Nat.add_sub_cancel_left, range'_getD _ _ _ hi]
    rw [hid1, hid2]
    have hnid : M.notes.getD i 0 ∈ M.notes := getD_mem_of_lt M.notes 0 i hi
    have hval1 :
        ((s ++ M.notes.map (fun nid => offsetPN (s.getD nid defaultPN) ⟨0⟩)
          ++ M.notes.map (fun nid =>
              offsetPN ((s ++ M.notes.map (fun nid => offsetPN (s.getD nid defaultPN) ⟨0⟩)).getD
                nid defaultPN) (⟨0⟩ + M.total_time))).getD (s.length + i) defaultPN)
        = offsetPN (s.getD (M.notes.getD i 0) defaultPN) ⟨0⟩ := by
      rw [List.getD_append _ _ _ _ (by simp only [List.length_append, List.length_map]; omega)]
      rw [List.getD_append_right _ _ _ _ (by simp)]
      rw [Nat.add_sub_cancel_left]
      exact getD_map _ M.notes i hi defaultPN 0
    have hval2 :
        ((s ++ M.notes.map (fun nid => offsetPN (s.getD nid defaultPN) ⟨0⟩)
          ++ M.notes.map (fun nid =>
              offsetPN ((s ++ M.notes.map (fun nid => offsetPN (s.getD nid defaultPN) ⟨0⟩)).getD
                nid defaultPN) (⟨0⟩ + M.total_time))).getD
            (s.length + M.notes.length + i) defaultPN)
        = offsetPN (s.getD (M.notes.getD i 0) defaultPN) (⟨0⟩ + M.total_time) := by
      rw [List.getD_append_right _ _ _ _ (by simp)]
      have hidx : s.length + M.notes.length + i
          - (s ++ M.notes.map (fun nid => offsetPN (s.getD nid defaultPN) ⟨0⟩)).length
          = i := by
        rw [hlen1]
        omega
      rw [hidx]
      rw [getD_map _ M.notes i hi defaultPN 0]
      rw [List.getD_append _ _ _ _ (hv _ hnid)]
    rw [hval1, hval2]
    constructor
    · show (s.getD (M.notes.getD i 0) defaultPN).offset + (⟨0⟩ + M.total_time)
        = (s.getD (M.notes.getD i 0) defaultPN).offset + ⟨0⟩ + M.total_time
      rw [Duration.ext_iff']
      simp [Duration.seconds_add]
    · intro hT
      show (s.getD (M.notes.getD i 0) defaultPN).offset + (⟨0⟩ + M.total_time)
        ≠ (s.getD (M.notes.getD i 0) defaultPN).offset + ⟨0⟩
      intro heq
      apply hT
      rw [Duration.ext_iff'] at heq ⊢
      simp [Duration.seconds_add] at heq ⊢
      linarith

/-- Witness for the amended C3 on a one-note, ordinary 4/4 measure. -/
theorem c3_repeated_measure_witness :
    (∀ nid ∈ (([0] : List NoteId)), nid < ([defaultPN] : Store).length) ∧
    (((Track.generate_notes [defaultPN] ⟨[⟨⟨120⟩, ⟨4, 4⟩, [0]⟩, ⟨⟨120⟩, ⟨4, 4⟩, [0]⟩]⟩).2).length
        = 2 * ([0] : List NoteId).length ∧
     ((Track.generate_notes [defaultPN] ⟨[⟨⟨120⟩, ⟨4, 4⟩, [0]⟩, ⟨⟨120⟩, ⟨4, 4⟩, [0]⟩]⟩).2).Nodup ∧
     ∀ i, i < ([0] : List NoteId).length →
      ((((Track.generate_notes [defaultPN]
            ⟨[⟨⟨120⟩, ⟨4, 4⟩, [0]⟩, ⟨⟨120⟩, ⟨4, 4⟩, [0]⟩]⟩).1).getD
          (((Track.generate_notes [defaultPN]
              ⟨[⟨⟨120⟩, ⟨4, 4⟩, [0]⟩, ⟨⟨120⟩, ⟨4, 4⟩, [0]⟩]⟩).2).getD
            (([0] : List NoteId).length + i) 0)
          defaultPN).offset
        = (((Track.generate_notes [defaultPN]
              ⟨[⟨⟨120⟩, ⟨4, 4⟩, [0]⟩, ⟨⟨120⟩, ⟨4, 4⟩, [0]⟩]⟩).1).getD
            (((Track.generate_notes [defaultPN]
                ⟨[⟨⟨120⟩, ⟨4, 4⟩, [0]⟩, ⟨⟨120⟩, ⟨4, 4⟩, [0]⟩]⟩).2).getD i 0)
            defaultPN).offset
          + Measure.total_time ⟨⟨120⟩, ⟨4, 4⟩, [0]⟩) ∧
      (Measure.total_time ⟨⟨120⟩, ⟨4, 4⟩, [0]⟩ ≠ ⟨0⟩ →
        (((Track.generate_notes [defaultPN]
              ⟨[⟨⟨120⟩, ⟨4, 4⟩, [0]⟩, ⟨⟨120⟩, ⟨4, 4⟩, [0]⟩]⟩).1).getD
            (((Track.generate_notes [defaultPN]
                ⟨[⟨⟨120⟩, ⟨4, 4⟩, [0]⟩, ⟨⟨120⟩, ⟨4, 4⟩, [0]⟩]⟩).2).getD
              (([0] : List NoteId).length + i) 0)
            defaultPN).offset
          ≠ (((Track.generate_notes [defaultPN]
                ⟨[⟨⟨120⟩, ⟨4, 4⟩, [0]⟩, ⟨⟨120⟩, ⟨4, 4⟩, [0]⟩]⟩).1).getD
              (((Track.generate_notes [defaultPN]
                  ⟨[⟨⟨120⟩, ⟨4, 4⟩, [0]⟩, ⟨⟨120⟩, ⟨4, 4⟩, [0]⟩]⟩).2).getD i 0)
              defaultPN).offset)) :=
  ⟨by decide,
   c3_repeated_measure [defaultPN] ⟨⟨120⟩, ⟨4, 4⟩, [0]⟩ (by decide)⟩

end MusicGen
